import Mathlib

/-!
Verification of the heimursaga-mobile waypoint synchronization layer.

This file gives a shallow embedding of the client-side map/waypoint logic of
the repository: the coordinate/identity normalizer, the incremental keyed
collection merger, the viewport filter, the journey-mode reconciler and the
bottom-drawer state machine, together with theorems settling the spec claims
about them.

JavaScript numbers are modelled as rationals, absent (undefined or null)
values as Option, and the event-driven asynchronous control flow as explicit
state-transition functions in which a pending fetch is represented by the
request it issued and resolution by a separate step consuming the outcome.
-/

namespace Heimursaga

/-- Truthiness of an optional numeric value under JavaScript coercion:
undefined, null and 0 are falsy, every other number is truthy. -/
def truthyR : Option Rat → Bool
  | some v => decide (v ≠ 0)
  | none => false

/-- JavaScript short-circuit disjunction on optional numeric values:
the left operand wins when it is truthy, otherwise the right is returned. -/
def ror (a b : Option Rat) : Option Rat := if truthyR a then a else b

/-- JavaScript coercion of an optional number with a zero default, as in the
source expression assigning lat or 0: a truthy value is kept, anything
falsy collapses to 0. -/
def numOr0 (a : Option Rat) : Rat := if truthyR a then a.getD 0 else 0

/-- Truthiness of an optional string: undefined, null and the empty string
are falsy. -/
def truthyS : Option String → Bool
  | some s => !s.isEmpty
  | none => false

/-- Stable identity key of a waypoint record. The constructor coords models
the source template string joining latitude and longitude with an underscore,
an injective rendering of the coordinate pair; postId models a server post
identifier used as the key. -/
inductive Identity where
  | postId (i : String)
  | coords (lat lon : Rat)
  deriving DecidableEq, Repr

namespace JSMap

variable {κ : Type} {α : Type} [DecidableEq κ]

/-- Whether the insertion-ordered association list holds an entry under key k. -/
def hasKey (m : List (κ × α)) (k : κ) : Bool :=
  m.any (fun p => decide (p.1 = k))

/-- JavaScript Map set on an insertion-ordered association list: when the key
is present the stored value is overwritten in place, keeping the original
insertion position; otherwise the pair is appended at the end. -/
def set (m : List (κ × α)) (k : κ) (v : α) : List (κ × α) :=
  if hasKey m k then
    m.map (fun p => if p.1 = k then (k, v) else p)
  else m ++ [(k, v)]

/-- Merging a page of records into the keyed collection: each record is
upserted under its derived key, in page order, so the last write wins. -/
def mergeBy (key : α → κ) (m : List (κ × α)) (page : List α) : List (κ × α) :=
  page.foldl (fun acc w => set acc (key w) w) m

/-- The last record of the page whose derived key is k, if any. -/
def lastVal (key : α → κ) (page : List α) (k : κ) : Option α :=
  (page.filter (fun w => decide (key w = k))).getLast?

/-- Rewriting every entry of the collection to the last page value for its
key, leaving entries whose key the page never writes untouched. -/
def applyLast (key : α → κ) (page : List α) (m : List (κ × α)) : List (κ × α) :=
  m.map (fun p =>
    match lastVal key page p.1 with
    | some v => (p.1, v)
    | none => p)

end JSMap

/-- Nested sub-object carrying coordinate field aliases, as found under the
waypoint, location and coordinates keys of raw server records. -/
structure Loc where
  lat : Option Rat
  latitude : Option Rat
  lon : Option Rat
  lng : Option Rat
  longitude : Option Rat
  deriving DecidableEq, Repr

/-- Extraction of one alias level: lat or latitude, and lon or lng or
longitude, under JavaScript truthiness. -/
def locPair (loc : Loc) : Option Rat × Option Rat :=
  (ror loc.lat loc.latitude, ror loc.lon (ror loc.lng loc.longitude))

namespace Explore

/-- Summary of the post backing a waypoint in explore screen responses. The
identifier is optional and JavaScript treats an empty one as absent; the
engagement count is part of the replaceable payload. -/
structure EPost where
  id : Option String
  likesCount : Option Int
  deriving DecidableEq, Repr

/-- Waypoint record of the explore screen collection. -/
structure Waypoint where
  lat : Rat
  lon : Rat
  post : Option EPost
  deriving DecidableEq, Repr

/-- The post id of a waypoint under JavaScript optional chaining and
truthiness: present exactly when a post exists and its id is non-empty. -/
def postIdTruthy (w : Waypoint) : Option String :=
  match w.post with
  | some p =>
    match p.id with
    | some i => if i.isEmpty then none else some i
    | none => none
  | none => none

/-- Source: the stableKey expression of the explore screen merge effect, the
post id when truthy and otherwise the template string joining latitude and
longitude with an underscore. -/
def stableKey (w : Waypoint) : Identity :=
  match w.post with
  | some p =>
    match p.id with
    | some i => if i.isEmpty then Identity.coords w.lat w.lon else Identity.postId i
    | none => Identity.coords w.lat w.lon
  | none => Identity.coords w.lat w.lon

/-- Source: the allWaypoints merge effect of the explore screen: each record
of a fetched page is upserted into the stable keyed collection under its
stable key. -/
def mergeWaypoints (m : List (Identity × Waypoint)) (page : List Waypoint) :
    List (Identity × Waypoint) :=
  JSMap.mergeBy stableKey m page

/-- Map bounds as read by the explore screen filter: each corner is an array
holding longitude then latitude, and either corner may be absent on the
received object. -/
structure MapBounds where
  ne : Option (Rat × Rat)
  sw : Option (Rat × Rat)
  deriving DecidableEq, Repr

/-- Source: the visibleWaypoints memo of the explore screen: with no bounds
or a corner missing, every collected waypoint is returned; otherwise the
collection is filtered to waypoints inside the inclusive bounds box. -/
def visibleWaypoints (allWaypoints : List Waypoint) (mapBounds : Option MapBounds) :
    List Waypoint :=
  match mapBounds with
  | none => allWaypoints
  | some b =>
    match b.ne, b.sw with
    | some ne, some sw =>
      let north := ne.2
      let south := sw.2
      let east := ne.1
      let west := sw.1
      allWaypoints.filter (fun w =>
        decide (south ≤ w.lat) && decide (w.lat ≤ north) &&
        decide (west ≤ w.lon) && decide (w.lon ≤ east))
    | _, _ => allWaypoints

/-- Full entry payload fetched for the expanded drawer view. -/
structure FullEntry where
  id : Option String
  deriving DecidableEq, Repr

/-- Payload held by the expanded drawer: either the separately fetched full
entry, or the already known preview waypoint substituted as a fallback. -/
inductive EntryData where
  | fullPost (p : FullEntry)
  | preview (w : Waypoint)
  deriving DecidableEq, Repr

/-- Drawer-relevant state of the explore screen. -/
structure DrawerState where
  selectedWaypoint : Option Waypoint
  isExpanded : Bool
  isDrawerVisible : Bool
  shouldRenderDrawer : Bool
  isLoadingExpanded : Bool
  isClosingAnimated : Bool
  fullEntryData : Option EntryData
  deriving DecidableEq, Repr

/-- Source: handleWaypointPress of the explore screen, with animation calls
omitted as visual-only. The returned option is the post identifier for
which a detail fetch was issued, if any; from the list view a waypoint with
no truthy post id goes straight to the expanded state with itself as the
payload, while from the map the drawer shows the collapsed card. -/
def handleWaypointPress (s : DrawerState) (waypoint : Waypoint) (fromListView : Bool) :
    DrawerState × Option String :=
  let s1 : DrawerState :=
    { s with selectedWaypoint := some waypoint, shouldRenderDrawer := true,
             isDrawerVisible := true, isClosingAnimated := false, fullEntryData := none }
  if fromListView then
    let s2 : DrawerState := { s1 with isLoadingExpanded := true, isExpanded := false }
    match postIdTruthy waypoint with
    | some pid => (s2, some pid)
    | none =>
      ({ s2 with fullEntryData := some (EntryData.preview waypoint), isExpanded := true,
                 isLoadingExpanded := false }, none)
  else
    ({ s1 with isExpanded := false, isLoadingExpanded := false }, none)

/-- Source: the synchronous part of handleExpandDetail of the explore
screen: the guard returns without changes when the selection has no truthy
post id, otherwise the loading flag is raised and a detail fetch for that
post id is issued. -/
def handleExpandDetailStart (s : DrawerState) : DrawerState × Option String :=
  match s.selectedWaypoint with
  | some w =>
    match postIdTruthy w with
    | some pid => ({ s with isLoadingExpanded := true }, some pid)
    | none => (s, none)
  | none => (s, none)

/-- Source: the continuation of handleExpandDetail running after the drawer
spring animation: the detail fetch outcome is applied, substituting the
captured selection as payload when the fetch rejected. -/
def handleExpandDetailResolve (s : DrawerState) (selectedWaypoint : Waypoint)
    (outcome : Except Unit FullEntry) : DrawerState :=
  match outcome with
  | Except.ok fullEntry =>
    { s with fullEntryData := some (EntryData.fullPost fullEntry),
             isExpanded := true, isLoadingExpanded := false }
  | Except.error _ =>
    { s with fullEntryData := some (EntryData.preview selectedWaypoint),
             isExpanded := true, isLoadingExpanded := false }

end Explore

/-- Modelled from the claim wording: an identity derived from the post
server id when present, and otherwise from a composite of the rounded
latitude and longitude. -/
def identityRoundedSpec (w : Explore.Waypoint) : Identity :=
  match Explore.postIdTruthy w with
  | some i => Identity.postId i
  | none => Identity.coords ((round w.lat : Int) : Rat) ((round w.lon : Int) : Rat)

/-- Modelled from the amended claim: an identity derived from the post
server id when present and non-empty, and otherwise from the composite of
the exact, unrounded latitude and longitude. -/
def identityAmended (w : Explore.Waypoint) : Identity :=
  match Explore.postIdTruthy w with
  | some i => Identity.postId i
  | none => Identity.coords w.lat w.lon

namespace Journal

/-- Post record attached to a journal or trip waypoint: optional server id,
optional date (an epoch-millisecond stamp standing for the date string,
which is non-empty and hence truthy whenever present), and raw coordinate
aliases with an optional nested location. -/
structure JPost where
  id : Option String
  date : Option Int
  lat : Option Rat
  latitude : Option Rat
  lon : Option Rat
  lng : Option Rat
  longitude : Option Rat
  location : Option Loc
  deriving DecidableEq, Repr

/-- Raw trip waypoint as returned by the trips service. -/
structure JWaypoint where
  date : Option Int
  lat : Option Rat
  latitude : Option Rat
  lon : Option Rat
  lng : Option Rat
  longitude : Option Rat
  location : Option Loc
  post : Option JPost
  deriving DecidableEq, Repr

/-- Transformed journey waypoint: the original record spread together with
the resolved numeric coordinates and the date override computed inside
enterJourneyMode. -/
structure TWaypoint where
  base : JWaypoint
  lat : Rat
  lon : Rat
  date : Option Int
  deriving DecidableEq, Repr

/-- Source: the per-waypoint coordinate and date transformation applied
inside enterJourneyMode: post-level aliases first when a post exists (with
the post location as a fallback when both coordinates are still falsy),
waypoint-level aliases otherwise, a zero default for whatever remains
missing, and the date resolved as the waypoint date or else the post date. -/
def transformJourneyWaypoint (w : JWaypoint) : TWaypoint :=
  let pair : Option Rat × Option Rat :=
    match w.post with
    | some p =>
      let lat := ror p.lat (ror p.latitude w.lat)
      let lon := ror p.lon (ror p.lng (ror p.longitude (ror w.lon w.lng)))
      if !truthyR lat && !truthyR lon then
        match p.location with
        | some loc => locPair loc
        | none => (lat, lon)
      else (lat, lon)
    | none =>
      let lat := ror w.lat w.latitude
      let lon := ror w.lon (ror w.lng w.longitude)
      if !truthyR lat && !truthyR lon then
        match w.location with
        | some loc => locPair loc
        | none => (lat, lon)
      else (lat, lon)
  { base := w
    lat := numOr0 pair.1
    lon := numOr0 pair.2
    date :=
      match w.date with
      | some d => some d
      | none =>
        match w.post with
        | some p => p.date
        | none => none }

/-- Source: the comparator key of the enterJourneyMode sort: the first
truthy of the transformed date, the post date and the literal 0, as an
epoch-millisecond integer. -/
def effDate (t : TWaypoint) : Int :=
  (match t.date with
    | some d => some d
    | none =>
      match t.base.post with
      | some p => p.date
      | none => none).getD 0

/-- Source: the transformedWaypoints map followed by the ascending date sort
of enterJourneyMode; the JavaScript sort with a numeric comparator is
modelled by a stable merge sort on the same key. -/
def journeySort (waypoints : List JWaypoint) : List TWaypoint :=
  (waypoints.map transformJourneyWaypoint).mergeSort
    (fun a b => decide (effDate a ≤ effDate b))

/-- Modelled from the claim wording of the spec: the claimed effective date
of a journey waypoint, the first available of the post date, the waypoint
date, the fetch timestamp and epoch 0 in that precedence order. No fetch
timestamp exists in the source, so it is passed as a parameter. -/
def claimEffDate (fetchTs : Option Int) (t : TWaypoint) : Int :=
  (match t.base.post with
    | some p =>
      match p.date with
      | some d => some d
      | none =>
        match t.base.date with
        | some d2 => some d2
        | none => fetchTs
    | none =>
      match t.base.date with
      | some d2 => some d2
      | none => fetchTs).getD 0

/-- Journal entry produced by the userWaypoints transformation of the
journal screen: resolved coordinates, date and the backing post. -/
structure UserWaypoint where
  lat : Rat
  lon : Rat
  date : Option Int
  post : Option JPost
  deriving DecidableEq, Repr

/-- Source: the stableKey expression of the journal screen merge effect,
identical in form to the explore screen one. -/
def stableKey (uw : UserWaypoint) : Identity :=
  match uw.post with
  | some p =>
    match p.id with
    | some i => if i.isEmpty then Identity.coords uw.lat uw.lon else Identity.postId i
    | none => Identity.coords uw.lat uw.lon
  | none => Identity.coords uw.lat uw.lon

/-- Source: the setAllUserEntries merge effect of the journal screen. The
surrounding guard skips the state update for an empty page, which merges to
the same collection anyway. -/
def mergeUserEntries (m : List (Identity × UserWaypoint)) (page : List UserWaypoint) :
    List (Identity × UserWaypoint) :=
  JSMap.mergeBy stableKey m page

/-- Source: the coordinate resolution of the userWaypoints memo of the
journal screen: top level aliases, then the nested location object when
both coordinates are still falsy, then a zero default. -/
def userWaypointCoords (post : JPost) : Rat × Rat :=
  let lat := ror post.lat post.latitude
  let lon := ror post.lon (ror post.lng post.longitude)
  let pair : Option Rat × Option Rat :=
    if !truthyR lat && !truthyR lon then
      match post.location with
      | some loc => locPair loc
      | none => (lat, lon)
    else (lat, lon)
  (numOr0 pair.1, numOr0 pair.2)

/-- Bounds reported by the journal screen map, south-west and north-east
corners. -/
structure JBounds where
  swLat : Rat
  swLon : Rat
  neLat : Rat
  neLon : Rat
  deriving DecidableEq, Repr

/-- Source: updateVisibleEntries of the journal screen. The bounds argument
is none when the map reported no bounds or the bounds query threw; the
guard additionally requires a non-empty waypoint list and all four bound
coordinates truthy, and in every other case the whole unfiltered list is
published. -/
def updateVisibleEntries : Option JBounds → List UserWaypoint → List UserWaypoint
  | some b, waypointsToFilter =>
    if 0 < waypointsToFilter.length ∧
        b.swLat ≠ 0 ∧ b.swLon ≠ 0 ∧ b.neLat ≠ 0 ∧ b.neLon ≠ 0 then
      waypointsToFilter.filter (fun w =>
        decide (b.swLat ≤ w.lat) && decide (w.lat ≤ b.neLat) &&
        decide (b.swLon ≤ w.lon) && decide (w.lon ≤ b.neLon))
    else waypointsToFilter
  | none, waypointsToFilter => waypointsToFilter

/-- Active tab of the journal screen. -/
inductive Tab where
  | entries
  | journeys
  | following
  | followers
  deriving DecidableEq, Repr

/-- Trip record with its nested waypoints. -/
structure Trip where
  id : String
  waypoints : List JWaypoint
  deriving DecidableEq, Repr

/-- Journey-mode relevant state of the journal screen. The pending field
represents the in-flight enterJourneyMode continuation waiting on its trip
fetch. -/
structure JourneyState where
  isJourneyMode : Bool
  activeTab : Tab
  selectedJourney : Option Trip
  journeyWaypoints : List TWaypoint
  pendingJourneyFetch : Option Trip
  deriving DecidableEq, Repr

/-- Events of the journey mode reconciler: the synchronous prefix of
enterJourneyMode, a tab change, and the resolution of the trip fetch. On
success the payload is the full trip with its waypoints already enriched,
since a per-waypoint post fetch failure leaves that waypoint unchanged and
the siblings enriched. -/
inductive JEvent where
  | enterJourney (j : Trip)
  | switchTab (t : Tab)
  | journeyFetchResolved (outcome : Except Unit Trip)

/-- Source: exitJourneyMode of the journal screen. -/
def exitJourneyMode (s : JourneyState) : JourneyState :=
  { s with isJourneyMode := false, selectedJourney := none, journeyWaypoints := [] }

/-- Source: the auto-exit effect of the journal screen, which exits journey
mode whenever the active tab is outside entries and journeys while journey
mode is active. -/
def autoExitEffect (s : JourneyState) : JourneyState :=
  if s.isJourneyMode = true ∧ s.activeTab ≠ Tab.entries ∧ s.activeTab ≠ Tab.journeys then
    exitJourneyMode s
  else s

/-- One event handler of the journal screen. Entering journey mode
synchronously selects the journey, activates journey mode, switches to the
entries tab and leaves the trip fetch pending. The resolution step applies
the continuation of enterJourneyMode: on success the full trip replaces the
selection and its waypoints are transformed and sorted; on failure the
initial empty waypoint list is sorted; in both cases the tab is forced back
to entries and journey mode activity is left untouched. -/
def applyEvent (s : JourneyState) : JEvent → JourneyState
  | JEvent.enterJourney j =>
    { s with selectedJourney := some j, isJourneyMode := true, activeTab := Tab.entries,
             pendingJourneyFetch := some j }
  | JEvent.switchTab t => { s with activeTab := t }
  | JEvent.journeyFetchResolved outcome =>
    match s.pendingJourneyFetch with
    | none => s
    | some _ =>
      match outcome with
      | Except.ok fullTrip =>
        { s with selectedJourney := some fullTrip,
                 journeyWaypoints := journeySort fullTrip.waypoints,
                 activeTab := Tab.entries, pendingJourneyFetch := none }
      | Except.error _ =>
        { s with journeyWaypoints := journeySort [],
                 activeTab := Tab.entries, pendingJourneyFetch := none }

/-- One step of the event loop: the event handler runs, then the auto-exit
reconciler effect observes the updated state. -/
def step (s : JourneyState) (e : JEvent) : JourneyState :=
  autoExitEffect (applyEvent s e)

/-- Record as consumed by the entries list of the journal screen: an
optional own identifier (present on bare trip waypoints) and an optional
backing post. -/
structure DisplayEntry where
  id : Option String
  post : Option JPost
  lat : Rat
  lon : Rat
  deriving DecidableEq, Repr

/-- Source: the selected entry comparison inside entriesToDisplay: entries
with posts compare by post id, bare waypoints by their own id, and an entry
never matches a selection of the other kind. -/
def matchesSelected (selectedEntry : DisplayEntry) (entry : DisplayEntry) : Bool :=
  match entry.post, selectedEntry.post with
  | some ep, some sp => ep.id == sp.id
  | none, none => entry.id == selectedEntry.id
  | _, _ => false

/-- Source: the selected-entry promotion block of entriesToDisplay: when the
list is non-empty and the selected entry is found beyond index 0, it is
moved to the front with the remaining entries kept in order. -/
def promoteSelected (sel : DisplayEntry) (entries : List DisplayEntry) :
    List DisplayEntry :=
  if 0 < entries.length then
    match entries.findIdx? (matchesSelected sel) with
    | some i =>
      if 0 < i then
        match entries[i]? with
        | some x => x :: entries.eraseIdx i
        | none => entries
      else entries
    | none => entries
  else entries

/-- Source: entriesToDisplay of the journal screen: journey waypoints while
journey mode is active on the entries tab, otherwise the viewport filtered
entries, with the selected entry, if any, promoted to the front. -/
def entriesToDisplay (isJourneyMode : Bool) (activeTab : Tab)
    (journeyWaypoints visibleEntries : List DisplayEntry)
    (selectedEntry : Option DisplayEntry) : List DisplayEntry :=
  let entries :=
    if isJourneyMode = true ∧ activeTab = Tab.entries then journeyWaypoints
    else visibleEntries
  match selectedEntry with
  | some sel => promoteSelected sel entries
  | none => entries

end Journal

namespace Bookmarks

/-- Raw bookmarked post record: top level coordinate aliases and the three
possible nested coordinate carriers consulted by the bookmarks screen. -/
structure BPost where
  id : Option String
  lat : Option Rat
  latitude : Option Rat
  lon : Option Rat
  lng : Option Rat
  longitude : Option Rat
  waypoint : Option Loc
  location : Option Loc
  coordinates : Option Loc
  deriving DecidableEq, Repr

/-- Source: the coordinate resolution of the waypointData memo of the
bookmarks screen: top level aliases, then the waypoint, location and
coordinates sub-objects, each consulted only while both coordinates so far
are null or zero, with a zero default for whatever remains missing. -/
def normCoords (post : BPost) : Rat × Rat :=
  let lat1 := ror post.lat post.latitude
  let lon1 := ror post.lon (ror post.lng post.longitude)
  let p1 : Option Rat × Option Rat := (lat1, lon1)
  let p2 :=
    if !truthyR p1.1 && !truthyR p1.2 then
      match post.waypoint with
      | some wp => locPair wp
      | none => p1
    else p1
  let p3 :=
    if !truthyR p2.1 && !truthyR p2.2 then
      match post.location with
      | some lc => locPair lc
      | none => p2
    else p2
  let p4 :=
    if !truthyR p3.1 && !truthyR p3.2 then
      match post.coordinates with
      | some c => locPair c
      | none => p3
    else p3
  (numOr0 p4.1, numOr0 p4.2)

/-- Modelled from the claim wording of the spec: the first level in the
priority order carrying a fully truthy coordinate pair wins, and both
coordinates default to zero when no level carries such a pair. -/
def claimFirstPair (post : BPost) : Rat × Rat :=
  let levels : List (Option Rat × Option Rat) :=
    [(ror post.lat post.latitude, ror post.lon (ror post.lng post.longitude))] ++
    (post.waypoint.map locPair).toList ++
    (post.location.map locPair).toList ++
    (post.coordinates.map locPair).toList
  match levels.find? (fun pr => truthyR pr.1 && truthyR pr.2) with
  | some pr => (numOr0 pr.1, numOr0 pr.2)
  | none => (0, 0)

/-- Level by level search that advances only while both coordinates so far
are falsy, skipping absent sub-objects: the amended reading of the
normalizer priority table. -/
def fallbackWalk (acc : Option Rat × Option Rat) :
    List (Option (Option Rat × Option Rat)) → Option Rat × Option Rat
  | [] => acc
  | l :: ls =>
    if !truthyR acc.1 && !truthyR acc.2 then
      match l with
      | some pr => fallbackWalk pr ls
      | none => fallbackWalk acc ls
    else acc

/-- One step of the fallback walk: with both coordinates so far falsy, the
level is taken when present (skipped when its sub-object is absent), and
otherwise the accumulated pair is final. -/
def chainStep (acc : Option Rat × Option Rat)
    (l : Option (Option Rat × Option Rat)) : Option Rat × Option Rat :=
  if !truthyR acc.1 && !truthyR acc.2 then
    match l with
    | some pr => pr
    | none => acc
  else acc

/-- Modelled from the amended claim: the bookmarks normalizer as a walk over
the level table that advances only while both coordinates are falsy. -/
def amendedNormCoords (post : BPost) : Rat × Rat :=
  let final := fallbackWalk
    (ror post.lat post.latitude, ror post.lon (ror post.lng post.longitude))
    [post.waypoint.map locPair, post.location.map locPair, post.coordinates.map locPair]
  (numOr0 final.1, numOr0 final.2)

/-- Modelled from the amended claim: the journal screen userWaypoints
normalizer as the same walk over its single nested level. -/
def amendedUserWaypointCoords (post : Journal.JPost) : Rat × Rat :=
  let final := fallbackWalk
    (ror post.lat post.latitude, ror post.lon (ror post.lng post.longitude))
    [post.location.map locPair]
  (numOr0 final.1, numOr0 final.2)

end Bookmarks

/-! Concrete records used to instantiate the claims. -/

/-- A journal post carrying only a server id. -/
def jpostOfId (i : Option String) : Journal.JPost :=
  ⟨i, none, none, none, none, none, none, none⟩

/-- A journal post carrying only a date. -/
def jpostOfDate (d : Option Int) : Journal.JPost :=
  ⟨none, d, none, none, none, none, none, none⟩

/-- Trip waypoint with its own date 100 whose post carries date 50. -/
def w1Sample : Journal.JWaypoint :=
  ⟨some 100, some 1, none, some 1, none, none, none, some (jpostOfDate (some 50))⟩

/-- Bare trip waypoint with its own date 70. -/
def w2Sample : Journal.JWaypoint :=
  ⟨some 70, some 2, none, some 2, none, none, none, none⟩

/-- A trip with no waypoints, enough to drive the journey reconciler. -/
def tripSample : Journal.Trip := ⟨"trip1", []⟩

/-- Initial journal screen state: entries tab, journey mode off. -/
def journeyInitSample : Journal.JourneyState :=
  ⟨false, Journal.Tab.entries, none, [], none⟩

/-- Explore waypoint backed by a post with server id p1. -/
def wPostSample : Explore.Waypoint := ⟨10, 20, some ⟨some "p1", none⟩⟩

/-- Explore waypoint with no backing post. -/
def wBareSample : Explore.Waypoint := ⟨30, 40, none⟩

/-- Explore drawer state with the posted sample waypoint selected. -/
def drawerSample : Explore.DrawerState :=
  ⟨some wPostSample, false, true, true, false, false, none⟩

/-- Explore drawer state before any selection. -/
def drawerClosedSample : Explore.DrawerState :=
  ⟨none, false, false, false, false, false, none⟩

/-- Bookmarked post with a truthy top-level latitude but no top-level
longitude, and a full coordinate pair in its waypoint sub-object. -/
def c8Sample : Bookmarks.BPost :=
  ⟨none, some 5, none, none, none, none,
    some ⟨some 1, none, some 2, none, none⟩, none, none⟩

/-- Display entry backed by post b. -/
def dispB : Journal.DisplayEntry := ⟨none, some (jpostOfId (some "b")), 1, 1⟩

/-- Display entry backed by post a. -/
def dispA : Journal.DisplayEntry := ⟨none, some (jpostOfId (some "a")), 2, 2⟩

/-- Selection referring to post a. -/
def dispSelA : Journal.DisplayEntry := ⟨none, some (jpostOfId (some "a")), 3, 3⟩

namespace JSMap

variable {κ : Type} {α : Type} [DecidableEq κ]

theorem lastVal_nil (key : α → κ) (k : κ) : lastVal key [] k = none := rfl

theorem lastVal_cons (key : α → κ) (w : α) (page : List α) (k : κ) :
    lastVal key (w :: page) k =
      match lastVal key page k with
      | some v => some v
      | none => if key w = k then some w else none := by
  unfold lastVal
  rw [List.filter_cons]
  by_cases h : key w = k
  · have hd : (decide (key w = k)) = true := by simp [h]
    rw [hd, if_pos rfl, List.getLast?_cons]
    cases hl : (page.filter (fun w => decide (key w = k))).getLast? with
    | none => simp [h]
    | some v => rfl
  · have hd : (decide (key w = k)) = false := by simp [h]
    rw [hd, if_neg (by simp)]
    cases hl : (page.filter (fun w => decide (key w = k))).getLast? with
    | none => simp [h]
    | some v => rfl

theorem applyLast_nil (key : α → κ) (m : List (κ × α)) :
    applyLast key [] m = m := by
  unfold applyLast
  have : ∀ p : κ × α,
      (match lastVal key [] p.1 with
        | some v => (p.1, v)
        | none => p) = p := by
    intro p; rw [lastVal_nil]
  simp only [this, List.map_id']

theorem hasKey_set_self (m : List (κ × α)) (k : κ) (v : α) :
    hasKey (set m k v) k = true := by
  unfold set
  by_cases h : hasKey m k
  · rw [if_pos h]
    unfold hasKey at h ⊢
    rw [List.any_eq_true] at h ⊢
    obtain ⟨p, hp, hpk⟩ := h
    exact ⟨(k, v), List.mem_map.mpr ⟨p, hp, by simp only [decide_eq_true_eq] at hpk; simp [hpk]⟩,
      by simp⟩
  · rw [if_neg h]
    unfold hasKey
    rw [List.any_append]
    simp

theorem hasKey_set_mono {m : List (κ × α)} {q : κ} (k : κ) (v : α)
    (h : hasKey m q = true) : hasKey (set m k v) q = true := by
  unfold set
  by_cases hk : hasKey m k
  · rw [if_pos hk]
    unfold hasKey at h ⊢
    rw [List.any_eq_true] at h ⊢
    obtain ⟨p, hp, hpq⟩ := h
    simp only [decide_eq_true_eq] at hpq
    by_cases hpk : p.1 = k
    · exact ⟨(k, v), List.mem_map.mpr ⟨p, hp, by simp [hpk]⟩,
        by simp [show k = q from hpk ▸ hpq]⟩
    · exact ⟨p, List.mem_map.mpr ⟨p, hp, by simp [hpk]⟩, by simp [hpq]⟩
  · rw [if_neg hk]
    unfold hasKey at h ⊢
    rw [List.any_append, h]
    simp

theorem hasKey_mergeBy_mono (key : α → κ) (page : List α) {m : List (κ × α)} {q : κ}
    (h : hasKey m q = true) : hasKey (mergeBy key m page) q = true := by
  induction page generalizing m with
  | nil => exact h
  | cons w rest ih =>
    show hasKey (mergeBy key (set m (key w) w) rest) q = true
    exact ih (hasKey_set_mono (key w) w h)

theorem hasKey_mergeBy_of_mem (key : α → κ) {page : List α} {w : α} (hw : w ∈ page)
    (m : List (κ × α)) : hasKey (mergeBy key m page) (key w) = true := by
  induction page generalizing m with
  | nil => cases hw
  | cons u rest ih =>
    rcases List.mem_cons.mp hw with h | h
    · subst h
      exact hasKey_mergeBy_mono key rest (hasKey_set_self m (key w) w)
    · exact ih h (set m (key u) u)

theorem mergeBy_eq_applyLast (key : α → κ) (page : List α) (m : List (κ × α))
    (h : ∀ w ∈ page, hasKey m (key w) = true) :
    mergeBy key m page = applyLast key page m := by
  induction page generalizing m with
  | nil => exact (applyLast_nil key m).symm
  | cons w rest ih =>
    have h1 : hasKey m (key w) = true := h w (List.mem_cons_self w rest)
    have hrest : ∀ u ∈ rest, hasKey (set m (key w) w) (key u) = true :=
      fun u hu => hasKey_set_mono (key w) w (h u (List.mem_cons_of_mem w hu))
    show mergeBy key (set m (key w) w) rest = applyLast key (w :: rest) m
    rw [ih (set m (key w) w) hrest]
    unfold set
    rw [if_pos h1]
    unfold applyLast
    rw [List.map_map]
    apply List.map_congr_left
    intro p _
    simp only [Function.comp_apply]
    by_cases hpk : p.1 = key w
    · rw [if_pos hpk, lastVal_cons, hpk]
      cases hlv : lastVal key rest (key w) with
      | some v => rfl
      | none => simp
    · rw [if_neg hpk, lastVal_cons]
      cases hlv : lastVal key rest p.1 with
      | some v => rfl
      | none =>
        have hne : ¬(key w = p.1) := fun hc => hpk hc.symm
        simp [hne]

theorem filter_map_replace {k q : κ} (hne : ¬(k = q)) (v : α) (m : List (κ × α)) :
    ((m.map (fun p => if p.1 = k then (k, v) else p)).filter
        (fun p => decide (p.1 = q))) =
      m.filter (fun p => decide (p.1 = q)) := by
  induction m with
  | nil => rfl
  | cons p rest ih =>
    simp only [List.map_cons, List.filter_cons]
    by_cases hpk : p.1 = k
    · have h1 : (decide (((k : κ), v).1 = q)) = false := by simp [hne]
      have h2 : (decide (p.1 = q)) = false := by simp [hpk, hne]
      rw [if_pos hpk, h1, h2, if_neg (by simp), if_neg (by simp)]
      exact ih
    · rw [if_neg hpk]
      by_cases hpq : p.1 = q
      · have h3 : (decide (p.1 = q)) = true := by simp [hpq]
        rw [h3, if_pos rfl, if_pos rfl, ih]
      · have h3 : (decide (p.1 = q)) = false := by simp [hpq]
        rw [h3, if_neg (by simp), if_neg (by simp)]
        exact ih

theorem entriesAt_set_ne {k q : κ} (hne : ¬(k = q)) (m : List (κ × α)) (v : α) :
    (set m k v).filter (fun p => decide (p.1 = q)) =
      m.filter (fun p => decide (p.1 = q)) := by
  unfold set
  by_cases hk : hasKey m k
  · rw [if_pos hk]
    exact filter_map_replace hne v m
  · rw [if_neg hk, List.filter_append]
    have : ([((k : κ), v)].filter (fun p => decide (p.1 = q))) = [] := by
      simp [hne]
    rw [this, List.append_nil]

theorem entriesAt_mergeBy (key : α → κ) (page : List α) {q : κ}
    (h : lastVal key page q = none) (m : List (κ × α)) :
    (mergeBy key m page).filter (fun p => decide (p.1 = q)) =
      m.filter (fun p => decide (p.1 = q)) := by
  induction page generalizing m with
  | nil => rfl
  | cons w rest ih =>
    have hcons := lastVal_cons key w rest q
    rw [h] at hcons
    have hrest : lastVal key rest q = none := by
      cases hlv : lastVal key rest q with
      | none => rfl
      | some v => rw [hlv] at hcons; cases hcons
    have hwq : ¬(key w = q) := by
      intro hc
      rw [hrest, if_pos hc] at hcons
      cases hcons
    show (mergeBy key (set m (key w) w) rest).filter (fun p => decide (p.1 = q)) = _
    rw [ih hrest (set m (key w) w), entriesAt_set_ne hwq m w]

theorem mem_set_self {m : List (κ × α)} {k : κ} {v : α} {p : κ × α}
    (hp : p ∈ set m k v) (hpk : p.1 = k) : p = (k, v) := by
  unfold set at hp
  by_cases hk : hasKey m k
  · rw [if_pos hk] at hp
    obtain ⟨p', hp', hfp⟩ := List.mem_map.mp hp
    by_cases hp'k : p'.1 = k
    · rw [if_pos hp'k] at hfp
      exact hfp.symm
    · rw [if_neg hp'k] at hfp
      subst hfp
      exact absurd hpk hp'k
  · rw [if_neg hk] at hp
    rcases List.mem_append.mp hp with hm | hs
    · exfalso
      apply hk
      unfold hasKey
      rw [List.any_eq_true]
      exact ⟨p, hm, by simp [hpk]⟩
    · simpa using hs

theorem applyLast_mergeBy (key : α → κ) (page : List α) (m : List (κ × α)) :
    applyLast key page (mergeBy key m page) = mergeBy key m page := by
  induction page generalizing m with
  | nil => exact applyLast_nil key m
  | cons w rest ih =>
    show applyLast key (w :: rest) (mergeBy key (set m (key w) w) rest) =
      mergeBy key (set m (key w) w) rest
    have ihD := ih (set m (key w) w)
    have step : applyLast key (w :: rest) (mergeBy key (set m (key w) w) rest) =
        applyLast key rest (mergeBy key (set m (key w) w) rest) := by
      unfold applyLast
      apply List.map_congr_left
      intro p hp
      rw [lastVal_cons]
      cases hlv : lastVal key rest p.1 with
      | some v => rfl
      | none =>
        by_cases hkp : key w = p.1
        · rw [if_pos hkp]
          have hfilter := entriesAt_mergeBy key rest hlv (set m (key w) w)
          have hpmem : p ∈ (mergeBy key (set m (key w) w) rest).filter
              (fun p' => decide (p'.1 = p.1)) :=
            List.mem_filter.mpr ⟨hp, by simp⟩
          rw [hfilter] at hpmem
          have hpset : p ∈ set m (key w) w := (List.mem_filter.mp hpmem).1
          have hpw := mem_set_self hpset hkp.symm
          rw [hpw]
        · rw [if_neg hkp]
    rw [step, ihD]

/-- Merging the same page twice into any insertion-ordered keyed collection
yields the same collection as merging it once. -/
theorem mergeBy_idem (key : α → κ) (m : List (κ × α)) (page : List α) :
    mergeBy key (mergeBy key m page) page = mergeBy key m page := by
  have hk : ∀ w ∈ page, hasKey (mergeBy key m page) (key w) = true :=
    fun w hw => hasKey_mergeBy_of_mem key hw m
  rw [mergeBy_eq_applyLast key page _ hk, applyLast_mergeBy]

end JSMap

/-- C2: for every collection and every page of records, merging the page
twice yields the same collection as merging it once, both for the explore
screen waypoint merge and for the journal screen entry merge. -/
theorem claim_C2_merge_idempotent :
    (∀ (C : List (Identity × Explore.Waypoint)) (P : List Explore.Waypoint),
      Explore.mergeWaypoints (Explore.mergeWaypoints C P) P =
        Explore.mergeWaypoints C P) ∧
    (∀ (C : List (Identity × Journal.UserWaypoint)) (P : List Journal.UserWaypoint),
      Journal.mergeUserEntries (Journal.mergeUserEntries C P) P =
        Journal.mergeUserEntries C P) :=
  ⟨fun C P => JSMap.mergeBy_idem Explore.stableKey C P,
   fun C P => JSMap.mergeBy_idem Journal.stableKey C P⟩

/-- C9: in the journal screen viewport filter, set bounds any of whose four
coordinates is exactly 0 are treated as absent: the entire unfiltered
waypoint list is returned instead of the viewport-filtered subset. -/
theorem claim_C9_zero_bound_fail_open (b : Journal.JBounds)
    (ws : List Journal.UserWaypoint)
    (h : b.swLat = 0 ∨ b.swLon = 0 ∨ b.neLat = 0 ∨ b.neLon = 0) :
    Journal.updateVisibleEntries (some b) ws = ws := by
  simp only [Journal.updateVisibleEntries]
  rw [if_neg]
  rintro ⟨-, h1, h2, h3, h4⟩
  rcases h with h | h | h | h
  exacts [h1 h, h2 h, h3 h, h4 h]

/-- C9 witness: bounds with a zero south-west latitude return a waypoint
outside the box unfiltered. -/
theorem claim_C9_witness :
    ((0 : Rat) = 0 ∨ (1 : Rat) = 0 ∨ (50 : Rat) = 0 ∨ (10 : Rat) = 0) ∧
    Journal.updateVisibleEntries (some ⟨0, 1, 50, 10⟩)
        [⟨60, 5, none, none⟩] = [(⟨60, 5, none, none⟩ : Journal.UserWaypoint)] :=
  ⟨Or.inl rfl,
   claim_C9_zero_bound_fail_open ⟨0, 1, 50, 10⟩ [⟨60, 5, none, none⟩] (Or.inl rfl)⟩

/-- C1 counterexample: in the journal screen filter, with set bounds whose
south-west latitude is exactly 0, a waypoint lying strictly outside the
bounds box still appears in the filtered output, falsifying the stated
equivalence for that filter. -/
theorem claim_C1_counterexample :
    (⟨60, 5, none, none⟩ : Journal.UserWaypoint) ∈
        Journal.updateVisibleEntries (some ⟨0, 2, 50, 10⟩) [⟨60, 5, none, none⟩] ∧
      ¬((0 : Rat) ≤ 60 ∧ (60 : Rat) ≤ 50 ∧ (2 : Rat) ≤ 5 ∧ (5 : Rat) ≤ 10) := by
  constructor
  · have h : Journal.updateVisibleEntries (some ⟨0, 2, 50, 10⟩)
        [(⟨60, 5, none, none⟩ : Journal.UserWaypoint)] = [⟨60, 5, none, none⟩] := by
      simp only [Journal.updateVisibleEntries]
      rw [if_neg]
      rintro ⟨-, h1, -, -, -⟩
      exact h1 rfl
    rw [h]
    exact List.mem_singleton.mpr rfl
  · rintro ⟨-, h2, -, -⟩
    norm_num at h2

/-- C1 (amended): a waypoint of the collection appears in the explore
screen viewport filter output iff its coordinates lie inclusively within
the set bounds; the same equivalence holds for the journal screen filter
provided all four bound coordinates are nonzero. -/
theorem claim_C1_viewport_filter :
    (∀ (ws : List Explore.Waypoint) (ne sw : Rat × Rat) (w : Explore.Waypoint),
      w ∈ Explore.visibleWaypoints ws (some ⟨some ne, some sw⟩) ↔
        w ∈ ws ∧ sw.2 ≤ w.lat ∧ w.lat ≤ ne.2 ∧ sw.1 ≤ w.lon ∧ w.lon ≤ ne.1) ∧
    (∀ (ws : List Journal.UserWaypoint) (b : Journal.JBounds)
        (w : Journal.UserWaypoint),
      b.swLat ≠ 0 → b.swLon ≠ 0 → b.neLat ≠ 0 → b.neLon ≠ 0 →
      (w ∈ Journal.updateVisibleEntries (some b) ws ↔
        w ∈ ws ∧ b.swLat ≤ w.lat ∧ w.lat ≤ b.neLat ∧
          b.swLon ≤ w.lon ∧ w.lon ≤ b.neLon)) := by
  constructor
  · intro ws ne sw w
    unfold Explore.visibleWaypoints
    rw [List.mem_filter]
    simp [and_assoc]
  · intro ws b w h1 h2 h3 h4
    simp only [Journal.updateVisibleEntries]
    by_cases hlen : 0 < ws.length
    · rw [if_pos ⟨hlen, h1, h2, h3, h4⟩, List.mem_filter]
      simp [and_assoc]
    · rw [if_neg (fun hc => hlen hc.1)]
      have hnil : ws = [] := List.eq_nil_of_length_eq_zero (Nat.eq_zero_of_not_pos hlen)
      subst hnil
      simp

/-- C1 witness: the amended equivalence evaluated on the spec scenario
bounds (north 50, south 40, east 10, west nonzero) for both filters. -/
theorem claim_C1_witness :
    ((⟨45, 5, none⟩ : Explore.Waypoint) ∈
        Explore.visibleWaypoints [⟨45, 5, none⟩, ⟨60, 5, none⟩]
          (some ⟨some (10, 50), some (1, 40)⟩) ↔
      (⟨45, 5, none⟩ : Explore.Waypoint) ∈
          [(⟨45, 5, none⟩ : Explore.Waypoint), ⟨60, 5, none⟩] ∧
        (40 : Rat) ≤ 45 ∧ (45 : Rat) ≤ 50 ∧ (1 : Rat) ≤ 5 ∧ (5 : Rat) ≤ 10) ∧
    ((40 : Rat) ≠ 0 ∧ (1 : Rat) ≠ 0 ∧ (50 : Rat) ≠ 0 ∧ (10 : Rat) ≠ 0) ∧
    ((⟨45, 5, none, none⟩ : Journal.UserWaypoint) ∈
        Journal.updateVisibleEntries (some ⟨40, 1, 50, 10⟩) [⟨45, 5, none, none⟩] ↔
      (⟨45, 5, none, none⟩ : Journal.UserWaypoint) ∈
          [(⟨45, 5, none, none⟩ : Journal.UserWaypoint)] ∧
        (40 : Rat) ≤ 45 ∧ (45 : Rat) ≤ 50 ∧ (1 : Rat) ≤ 5 ∧ (5 : Rat) ≤ 10) :=
  ⟨claim_C1_viewport_filter.1 [⟨45, 5, none⟩, ⟨60, 5, none⟩] (10, 50) (1, 40) ⟨45, 5, none⟩,
   ⟨by norm_num, by norm_num, by norm_num, by norm_num⟩,
   claim_C1_viewport_filter.2 [⟨45, 5, none, none⟩] ⟨40, 1, 50, 10⟩ ⟨45, 5, none, none⟩
     (by norm_num) (by norm_num) (by norm_num) (by norm_num)⟩

/-- C4 counterexample: a postless waypoint at latitude 10.5 and longitude
20.5 gets the composite key of its exact coordinates, which differs from
the claimed composite of the rounded coordinates. -/
theorem claim_C4_counterexample :
    Explore.stableKey ⟨21 / 2, 41 / 2, none⟩ ≠
      identityRoundedSpec ⟨21 / 2, 41 / 2, none⟩ := by
  have h1 : Explore.stableKey ⟨21 / 2, 41 / 2, none⟩ =
      Identity.coords (21 / 2) (41 / 2) := rfl
  have h2 : identityRoundedSpec ⟨21 / 2, 41 / 2, none⟩ =
      Identity.coords ((round ((21 : Rat) / 2) : Int) : Rat)
        ((round ((41 : Rat) / 2) : Int) : Rat) := rfl
  rw [h1, h2, show round ((21 : Rat) / 2) = 11 by norm_num [round_eq],
    show round ((41 : Rat) / 2) = 21 by norm_num [round_eq]]
  intro h
  rw [Identity.coords.injEq] at h
  norm_num at h

/-- C4 (amended): the stable key equals the post server id when one is
present and non-empty, and otherwise the composite of the exact, unrounded
latitude and longitude. -/
theorem claim_C4_identity (w : Explore.Waypoint) :
    Explore.stableKey w = identityAmended w := by
  obtain ⟨lat, lon, post⟩ := w
  cases post with
  | none => rfl
  | some p =>
    obtain ⟨pid, likes⟩ := p
    cases pid with
    | none => rfl
    | some i =>
      by_cases hi : i.isEmpty <;>
        simp [Explore.stableKey, identityAmended, Explore.postIdTruthy, hi]

namespace Bookmarks

theorem fallbackWalk_stop {acc : Option Rat × Option Rat}
    (h : ¬(!truthyR acc.1 && !truthyR acc.2) = true)
    (ls : List (Option (Option Rat × Option Rat))) : fallbackWalk acc ls = acc := by
  cases ls with
  | nil => rfl
  | cons l ls =>
    simp only [fallbackWalk]
    rw [if_neg h]

theorem fallbackWalk_cons (acc : Option Rat × Option Rat)
    (l : Option (Option Rat × Option Rat))
    (ls : List (Option (Option Rat × Option Rat))) :
    fallbackWalk acc (l :: ls) = fallbackWalk (chainStep acc l) ls := by
  by_cases h : (!truthyR acc.1 && !truthyR acc.2) = true
  · simp only [fallbackWalk, chainStep]
    rw [if_pos h, if_pos h]
    cases l with
    | some pr => rfl
    | none => rfl
  · simp only [fallbackWalk, chainStep]
    rw [if_neg h, if_neg h]
    exact (fallbackWalk_stop h ls).symm

theorem fallbackWalk_eq_foldl (ls : List (Option (Option Rat × Option Rat)))
    (acc : Option Rat × Option Rat) :
    fallbackWalk acc ls = ls.foldl chainStep acc := by
  induction ls generalizing acc with
  | nil => rfl
  | cons l ls ih => rw [fallbackWalk_cons, List.foldl_cons, ih]

theorem chainStep_map (acc : Option Rat × Option Rat) (o : Option Loc) :
    chainStep acc (o.map locPair) =
      if !truthyR acc.1 && !truthyR acc.2 then
        match o with
        | some lc => locPair lc
        | none => acc
      else acc := by
  cases o with
  | some lc => rfl
  | none => rfl

end Bookmarks

/-- C8 counterexample: a record with a truthy top-level latitude but no
longitude anywhere at top level, and a full coordinate pair in its waypoint
sub-object, normalizes to the top-level latitude with a zero longitude,
not to the first full non-zero pair claimed by the spec. -/
theorem claim_C8_counterexample :
    Bookmarks.normCoords c8Sample = (5, 0) ∧
    Bookmarks.claimFirstPair c8Sample = (1, 2) ∧
    Bookmarks.normCoords c8Sample ≠ Bookmarks.claimFirstPair c8Sample :=
  ⟨by decide, by decide, by decide⟩

/-- C8 (amended): both normalizers advance to the next level of the
priority table only while both coordinates found so far are null or zero; a
level at which either coordinate alias is truthy ends the search, with any
still-missing coordinate defaulting to 0. -/
theorem claim_C8_normalizer (post : Bookmarks.BPost) (jpost : Journal.JPost) :
    Bookmarks.normCoords post = Bookmarks.amendedNormCoords post ∧
    Journal.userWaypointCoords jpost = Bookmarks.amendedUserWaypointCoords jpost := by
  constructor
  · unfold Bookmarks.normCoords Bookmarks.amendedNormCoords
    rw [Bookmarks.fallbackWalk_eq_foldl]
    simp only [List.foldl_cons, List.foldl_nil]
    rw [Bookmarks.chainStep_map, Bookmarks.chainStep_map, Bookmarks.chainStep_map]
  · unfold Journal.userWaypointCoords Bookmarks.amendedUserWaypointCoords
    rw [Bookmarks.fallbackWalk_eq_foldl]
    simp only [List.foldl_cons, List.foldl_nil]
    rw [Bookmarks.chainStep_map]

unseal List.merge List.mergeSort in
/-- C5 counterexample: a trip whose first waypoint has its own date 100 and
a post date 50, and whose second, postless waypoint has date 70, is sorted
by enterJourneyMode into an order that is not ascending in the claimed
effective date (post date first), because the code gives the waypoint's own
date precedence over the post date. -/
theorem claim_C5_counterexample :
    ¬ List.Sorted
        (fun a b => Journal.claimEffDate none a ≤ Journal.claimEffDate none b)
        (Journal.journeySort [w1Sample, w2Sample]) := by
  decide

/-- C5 (amended): the journey waypoint sequence built by enterJourneyMode is
a permutation of the transformed trip waypoints sorted ascending by
effective date, where the effective date is the first available of the
waypoint's own date and its post's date, in that precedence order, else
epoch 0. -/
theorem claim_C5_journey_sorted (waypoints : List Journal.JWaypoint) :
    List.Sorted (fun a b => Journal.effDate a ≤ Journal.effDate b)
        (Journal.journeySort waypoints) ∧
    (Journal.journeySort waypoints).Perm
        (waypoints.map Journal.transformJourneyWaypoint) := by
  constructor
  · have hs := @List.sorted_mergeSort Journal.TWaypoint
      (fun a b =>
        decide (Journal.effDate a ≤ Journal.effDate b))
      (fun a b c h1 h2 => by
        simp only [decide_eq_true_eq] at h1 h2 ⊢
        exact le_trans h1 h2)
      (fun a b => by
        simp only [Bool.or_eq_true, decide_eq_true_eq]
        exact le_total _ _)
      (waypoints.map Journal.transformJourneyWaypoint)
    exact hs.imp (fun h => by simpa using h)
  · exact List.mergeSort_perm _ _

/-- C6: entering journey mode and then switching to a tab outside entries
and journeys before the trip fetch resolves leaves journey mode inactive
once the tab switch is processed, and it remains inactive when the fetch
later resolves, whatever the outcome. -/
theorem claim_C6_tab_switch_cancels (s0 : Journal.JourneyState)
    (j : Journal.Trip) (t : Journal.Tab) (outcome : Except Unit Journal.Trip)
    (ht1 : t ≠ Journal.Tab.entries) (ht2 : t ≠ Journal.Tab.journeys) :
    (Journal.step (Journal.step s0 (Journal.JEvent.enterJourney j))
        (Journal.JEvent.switchTab t)).isJourneyMode = false ∧
    (Journal.step (Journal.step (Journal.step s0 (Journal.JEvent.enterJourney j))
          (Journal.JEvent.switchTab t))
        (Journal.JEvent.journeyFetchResolved outcome)).isJourneyMode = false := by
  cases outcome <;>
    simp [Journal.step, Journal.applyEvent, Journal.autoExitEffect,
      Journal.exitJourneyMode, ht1, ht2]

/-- C6 witness: the concrete scenario with the followers tab and a
successful late resolution, started from the initial journal state. -/
theorem claim_C6_witness :
    (Journal.Tab.followers ≠ Journal.Tab.entries ∧
     Journal.Tab.followers ≠ Journal.Tab.journeys) ∧
    ((Journal.step (Journal.step journeyInitSample
          (Journal.JEvent.enterJourney tripSample))
        (Journal.JEvent.switchTab Journal.Tab.followers)).isJourneyMode = false ∧
     (Journal.step (Journal.step (Journal.step journeyInitSample
            (Journal.JEvent.enterJourney tripSample))
          (Journal.JEvent.switchTab Journal.Tab.followers))
        (Journal.JEvent.journeyFetchResolved
          (Except.ok tripSample))).isJourneyMode = false) :=
  ⟨⟨by decide, by decide⟩,
   claim_C6_tab_switch_cancels journeyInitSample tripSample
     Journal.Tab.followers (Except.ok tripSample) (by decide) (by decide)⟩

/-- C3: when the drawer selection has a backing post and the detail fetch
rejects, handleExpandDetail still issues the fetch and then terminates with
the drawer expanded, not loading, and the preview selection itself
substituted as the detail payload. -/
theorem claim_C3_expand_fallback (s : Explore.DrawerState)
    (w : Explore.Waypoint) (pid : String) (hw : s.selectedWaypoint = some w)
    (hpid : Explore.postIdTruthy w = some pid) :
    (Explore.handleExpandDetailStart s).2 = some pid ∧
    (Explore.handleExpandDetailResolve (Explore.handleExpandDetailStart s).1 w
        (Except.error ())).isExpanded = true ∧
    (Explore.handleExpandDetailResolve (Explore.handleExpandDetailStart s).1 w
        (Except.error ())).isLoadingExpanded = false ∧
    (Explore.handleExpandDetailResolve (Explore.handleExpandDetailStart s).1 w
        (Except.error ())).fullEntryData = some (Explore.EntryData.preview w) ∧
    (Explore.handleExpandDetailResolve (Explore.handleExpandDetailStart s).1 w
        (Except.error ())).selectedWaypoint = some w := by
  simp [Explore.handleExpandDetailStart, Explore.handleExpandDetailResolve,
    hw, hpid]

/-- C3 witness: the drawer sample with the posted waypoint selected and the
fetch rejected ends expanded with the preview as payload. -/
theorem claim_C3_witness :
    drawerSample.selectedWaypoint = some wPostSample ∧
    Explore.postIdTruthy wPostSample = some "p1" ∧
    ((Explore.handleExpandDetailStart drawerSample).2 = some "p1" ∧
     (Explore.handleExpandDetailResolve
        (Explore.handleExpandDetailStart drawerSample).1 wPostSample
        (Except.error ())).isExpanded = true ∧
     (Explore.handleExpandDetailResolve
        (Explore.handleExpandDetailStart drawerSample).1 wPostSample
        (Except.error ())).isLoadingExpanded = false ∧
     (Explore.handleExpandDetailResolve
        (Explore.handleExpandDetailStart drawerSample).1 wPostSample
        (Except.error ())).fullEntryData =
       some (Explore.EntryData.preview wPostSample) ∧
     (Explore.handleExpandDetailResolve
        (Explore.handleExpandDetailStart drawerSample).1 wPostSample
        (Except.error ())).selectedWaypoint = some wPostSample) :=
  ⟨rfl, rfl, claim_C3_expand_fallback drawerSample wPostSample "p1" rfl rfl⟩

/-- C10: selecting from the list view a waypoint with no truthy backing
post id expands the drawer immediately with the preview waypoint itself as
the payload and issues no fetch, whereas expanding the same bare waypoint
selected from the map is a no-op. -/
theorem claim_C10_bare_list_selection (s : Explore.DrawerState)
    (w : Explore.Waypoint) (hw : Explore.postIdTruthy w = none) :
    ((Explore.handleWaypointPress s w true).2 = none ∧
     (Explore.handleWaypointPress s w true).1.isExpanded = true ∧
     (Explore.handleWaypointPress s w true).1.isLoadingExpanded = false ∧
     (Explore.handleWaypointPress s w true).1.fullEntryData =
       some (Explore.EntryData.preview w) ∧
     (Explore.handleWaypointPress s w true).1.selectedWaypoint = some w) ∧
    Explore.handleExpandDetailStart (Explore.handleWaypointPress s w false).1 =
      ((Explore.handleWaypointPress s w false).1, none) := by
  constructor
  · simp [Explore.handleWaypointPress, hw]
  · simp [Explore.handleWaypointPress, Explore.handleExpandDetailStart, hw]

/-- C10 witness: the bare sample waypoint pressed from the list view of the
closed drawer expands with itself as payload and no fetch, and pressed from
the map the subsequent expansion changes nothing. -/
theorem claim_C10_witness :
    Explore.postIdTruthy wBareSample = none ∧
    (((Explore.handleWaypointPress drawerClosedSample wBareSample true).2 = none ∧
      (Explore.handleWaypointPress drawerClosedSample wBareSample
        true).1.isExpanded = true ∧
      (Explore.handleWaypointPress drawerClosedSample wBareSample
        true).1.isLoadingExpanded = false ∧
      (Explore.handleWaypointPress drawerClosedSample wBareSample
        true).1.fullEntryData = some (Explore.EntryData.preview wBareSample) ∧
      (Explore.handleWaypointPress drawerClosedSample wBareSample
        true).1.selectedWaypoint = some wBareSample) ∧
     Explore.handleExpandDetailStart
        (Explore.handleWaypointPress drawerClosedSample wBareSample false).1 =
       ((Explore.handleWaypointPress drawerClosedSample wBareSample false).1,
         none)) :=
  ⟨rfl, claim_C10_bare_list_selection drawerClosedSample wBareSample rfl⟩

namespace Journal

theorem promoteSelected_subset {sel : DisplayEntry} {l : List DisplayEntry}
    {e : DisplayEntry} (he : e ∈ promoteSelected sel l) : e ∈ l := by
  unfold promoteSelected at he
  by_cases hlen : 0 < l.length
  · rw [if_pos hlen] at he
    cases hidx : l.findIdx? (matchesSelected sel) with
    | none => simp only [hidx] at he; exact he
    | some i =>
      simp only [hidx] at he
      by_cases hi : 0 < i
      · rw [if_pos hi] at he
        cases hget : l[i]? with
        | none => simp only [hget] at he; exact he
        | some x =>
          simp only [hget] at he
          rcases List.mem_cons.mp he with h | h
          · subst h; exact List.getElem?_mem hget
          · exact (List.eraseIdx_sublist l i).subset h
      · rw [if_neg hi] at he; exact he
  · rw [if_neg hlen] at he; exact he

theorem promoteSelected_head {sel : DisplayEntry} {l : List DisplayEntry}
    (h : ∃ e ∈ l, matchesSelected sel e = true) :
    ∃ hd, (promoteSelected sel l).head? = some hd ∧
      matchesSelected sel hd = true := by
  have hlt : l.findIdx (matchesSelected sel) < l.length :=
    List.findIdx_lt_length_of_exists h
  have hidx : l.findIdx? (matchesSelected sel) =
      some (l.findIdx (matchesSelected sel)) :=
    List.findIdx?_eq_some_of_exists h
  have hlen : 0 < l.length := Nat.lt_of_le_of_lt (Nat.zero_le _) hlt
  have hp := @List.findIdx_getElem _ (matchesSelected sel) l hlt
  unfold promoteSelected
  rw [if_pos hlen]
  simp only [hidx]
  by_cases hi : 0 < l.findIdx (matchesSelected sel)
  · rw [if_pos hi]
    simp only [List.getElem?_eq_getElem hlt]
    exact ⟨_, List.head?_cons, hp⟩
  · rw [if_neg hi]
    have hzero : l.findIdx (matchesSelected sel) = 0 := Nat.eq_zero_of_not_pos hi
    refine ⟨l[0], ?_, ?_⟩
    · rw [List.head?_eq_getElem?]
      exact List.getElem?_eq_getElem hlen
    · simpa [hzero] using hp

end Journal

/-- C7: whenever some entry of the displayed sequence matches the selected
identity, the entry at index 0 of that sequence matches it. -/
theorem claim_C7_selection_promotion (isJourneyMode : Bool)
    (activeTab : Journal.Tab)
    (journeyWaypoints visibleEntries : List Journal.DisplayEntry)
    (sel : Journal.DisplayEntry)
    (h : ∃ e ∈ Journal.entriesToDisplay isJourneyMode activeTab journeyWaypoints
        visibleEntries (some sel), Journal.matchesSelected sel e = true) :
    ∃ hd, (Journal.entriesToDisplay isJourneyMode activeTab journeyWaypoints
        visibleEntries (some sel)).head? = some hd ∧
      Journal.matchesSelected sel hd = true := by
  have heq : Journal.entriesToDisplay isJourneyMode activeTab journeyWaypoints
      visibleEntries (some sel) =
      Journal.promoteSelected sel
        (if isJourneyMode = true ∧ activeTab = Journal.Tab.entries then
          journeyWaypoints else visibleEntries) := rfl
  rw [heq] at h ⊢
  obtain ⟨e, he, hm⟩ := h
  exact Journal.promoteSelected_head ⟨e, Journal.promoteSelected_subset he, hm⟩

/-- C7 witness: with a selection referring to post a present at index 1 of
the visible entries, the displayed sequence starts with a matching entry. -/
theorem claim_C7_witness :
    (∃ e ∈ Journal.entriesToDisplay false Journal.Tab.entries []
        [dispB, dispA] (some dispSelA),
      Journal.matchesSelected dispSelA e = true) ∧
    (∃ hd, (Journal.entriesToDisplay false Journal.Tab.entries []
        [dispB, dispA] (some dispSelA)).head? = some hd ∧
      Journal.matchesSelected dispSelA hd = true) :=
  ⟨by decide,
   claim_C7_selection_promotion false Journal.Tab.entries [] [dispB, dispA]
     dispSelA (by decide)⟩

end Heimursaga
